import Mathlib

/-!
# Verification of the cinema seat-reservation system (`sistemacine5.py`)

Shallow embedding of the seat/room data model of the repository:
the `Asiento` (Seat) and `SalaCine` (Room) classes, their validation
helpers, the pricing function and the flat-file persistence layer.

Modelling conventions:
* Python's dynamically typed scalar arguments are embedded as `PyVal`
  (`int`, `float`, `bool`, `str`).  `bool` is a subclass of `int` in
  Python, so the numeric `isinstance` check of `validar_entrada` accepts
  booleans, while the `isinstance(_, bool)` check of
  `validar_tipo_booleano` accepts only booleans.
* Prices are exact rationals (`ℚ`).  Every numeric literal appearing in
  the source (`0.20`, `0.30`, `1`) and every value the claims mention
  (`10.0`, `5.0`) is a dyadic/decimal value on which Python float
  arithmetic agrees with exact rational arithmetic.
* Exceptions are an `Except CineError` result; each `raise` site maps to
  the corresponding error constructor.
* In-place mutation of a seat object obtained from `buscar_asiento` is
  rendered as replacing the first matching seat of the room's list.
* Text (file lines) is modelled as `List Char`.
-/

/-- The Python values that can flow into the public interface:
`int`, `float`, `bool` (a numeric subtype of `int`) and `str`. -/
inductive PyVal where
  | int : ℤ → PyVal
  | float : ℚ → PyVal
  | bool : Bool → PyVal
  | str : String → PyVal
deriving DecidableEq

/-- `isinstance(valor, (int, float))`: booleans are instances of `int`,
strings are not numeric. -/
def PyVal.isNum : PyVal → Bool
  | .str _ => false
  | _ => true

/-- Numeric value of a Python scalar (`True` counts as `1`, `False` as `0`).
The `str` case is junk: it is only ever applied after `isNum` holds. -/
def PyVal.toRat : PyVal → ℚ
  | .int n => (n : ℚ)
  | .float q => q
  | .bool b => if b then 1 else 0
  | .str _ => 0

/-- Python `==` between interface values: numbers (including booleans)
compare by numeric value, strings compare by contents, and a string never
equals a number. -/
def pyEq (a b : PyVal) : Bool :=
  match a, b with
  | .str s, .str t => decide (s = t)
  | .str _, _ => false
  | _, .str _ => false
  | a, b => decide (a.toRat = b.toRat)

/-- Python truthiness, used by `if dia_espectador:` / `if es_mayor_65:`
inside `calcular_precio`.  Only the `bool` case is reachable there, since
`reservar` validates both flags first. -/
def pyTruthy : PyVal → Bool
  | .bool b => b
  | .int n => decide (n ≠ 0)
  | .float q => decide (q ≠ 0)
  | .str s => decide (s ≠ "")

/-- The failure modes of the system: Python `ValueError` plus the four
custom exception classes declared at the top of the source. -/
inductive CineError where
  | valueError
  | asientoReservado
  | asientoNoReservado
  | asientoNoEncontrado
  | asientoDuplicado
deriving DecidableEq

/-- `validar_entrada`: rejects non-numeric values, then rejects values
`<= 0`. -/
def validar_entrada (valor : PyVal) : Except CineError Unit :=
  if valor.isNum = false then .error .valueError
  else if valor.toRat ≤ 0 then .error .valueError
  else .ok ()

/-- `validar_tipo_booleano`: accepts exactly the values of type `bool`. -/
def validar_tipo_booleano (valor : PyVal) : Except CineError Unit :=
  match valor with
  | .bool _ => .ok ()
  | _ => .error .valueError

/-- `calcular_precio`: additive discount of `0.20` on spectator day and
`0.30` for seniors, applied to the base price. -/
def calcular_precio (precio_base : ℚ) (dia_espectador es_mayor_65 : Bool) : ℚ :=
  let descuento : ℚ := 0
  let descuento := if dia_espectador then descuento + 20/100 else descuento
  let descuento := if es_mayor_65 then descuento + 30/100 else descuento
  precio_base * (1 - descuento)

/-- The state of an `Asiento` object: identity (`numero`, `fila`) as the
Python values passed at construction, the reservation flag and the two
price fields (kept as their numeric value). -/
structure Asiento where
  numero : PyVal
  fila : PyVal
  reservado : Bool
  precio_base : ℚ
  precio_actual : ℚ
deriving DecidableEq

/-- `Asiento.__init__`: validates `numero`, `fila`, `precio_base` (in that
order) as positive numbers, then initialises `reservado := False` and
`precio_actual := precio_base`. -/
def Asiento.init (numero fila precio_base : PyVal) : Except CineError Asiento := do
  validar_entrada numero
  validar_entrada fila
  validar_entrada precio_base
  .ok { numero := numero, fila := fila, reservado := false,
        precio_base := precio_base.toRat, precio_actual := precio_base.toRat }

/-- `Asiento.reservar`: validates both flags as booleans (in source order
`es_mayor_65` then `dia_espectador`), fails on an already reserved seat,
otherwise recomputes the price with `calcular_precio` and marks the seat
reserved. -/
def Asiento.reservar (a : Asiento) (es_mayor_65 dia_espectador : PyVal) :
    Except CineError Asiento := do
  validar_tipo_booleano es_mayor_65
  validar_tipo_booleano dia_espectador
  if a.reservado then .error .asientoReservado
  else .ok { a with
    precio_actual := calcular_precio a.precio_base (pyTruthy dia_espectador) (pyTruthy es_mayor_65),
    reservado := true }

/-- `Asiento.cancelar_reserva`: fails on an unreserved seat, otherwise
clears the flag and restores `precio_actual := precio_base`. -/
def Asiento.cancelar_reserva (a : Asiento) : Except CineError Asiento :=
  if a.reservado = false then .error .asientoNoReservado
  else .ok { a with reservado := false, precio_actual := a.precio_base }

/-- The state of a `SalaCine` object: pricing configuration (kept as the
Python values passed at construction) and the insertion-ordered seat
list. -/
structure SalaCine where
  precio_base : PyVal
  descuento_dia : PyVal
  descuento_mayor_65 : PyVal
  asientos : List Asiento
deriving DecidableEq

/-- `SalaCine.__init__`: validates the base price and both discount rates
as positive numbers, rejects discounts above `1`, and starts with an empty
seat list.  (The source's default arguments are `0.20` and `0.30`.) -/
def SalaCine.init (precio_base descuento_dia descuento_mayor_65 : PyVal) :
    Except CineError SalaCine := do
  validar_entrada precio_base
  validar_entrada descuento_dia
  validar_entrada descuento_mayor_65
  if descuento_dia.toRat > 1 ∨ descuento_mayor_65.toRat > 1 then .error .valueError
  else .ok { precio_base := precio_base, descuento_dia := descuento_dia,
             descuento_mayor_65 := descuento_mayor_65, asientos := [] }

/-- The seat-lookup predicate `asiento.numero == numero and
asiento.fila == fila` shared by `agregar_asiento` and `buscar_asiento`. -/
def coincide (numero fila : PyVal) (a : Asiento) : Bool :=
  pyEq a.numero numero && pyEq a.fila fila

/-- `SalaCine.agregar_asiento`: validates the inputs, rejects a duplicate
`(fila, numero)` identity, otherwise constructs a seat with the room's
base price and appends it. -/
def SalaCine.agregar_asiento (s : SalaCine) (numero fila : PyVal) :
    Except CineError SalaCine := do
  validar_entrada numero
  validar_entrada fila
  if s.asientos.any (coincide numero fila) then .error .asientoDuplicado
  else do
    let nuevo ← Asiento.init numero fila s.precio_base
    .ok { s with asientos := s.asientos ++ [nuevo] }

/-- `SalaCine.buscar_asiento`: validates the inputs and returns the first
seat matching `(numero, fila)`, failing if none exists. -/
def SalaCine.buscar_asiento (s : SalaCine) (numero fila : PyVal) :
    Except CineError Asiento := do
  validar_entrada numero
  validar_entrada fila
  match s.asientos.find? (coincide numero fila) with
  | some a => .ok a
  | none => .error .asientoNoEncontrado

/-- In-place mutation of the seat returned by `buscar_asiento`, rendered
functionally: apply `f` to the first seat matching `(numero, fila)` and
keep every other seat as is; fail with `asientoNoEncontrado` when no seat
matches. -/
def modificarPrimero (f : Asiento → Except CineError Asiento) (numero fila : PyVal) :
    List Asiento → Except CineError (List Asiento)
  | [] => .error .asientoNoEncontrado
  | a :: resto =>
    if coincide numero fila a then
      match f a with
      | .ok a2 => .ok (a2 :: resto)
      | .error e => .error e
    else
      match modificarPrimero f numero fila resto with
      | .ok resto2 => .ok (a :: resto2)
      | .error e => .error e

/-- `SalaCine.reservar_asiento`: validates both flags, then delegates to
`buscar_asiento` (which validates `numero` and `fila`) and to the found
seat's `reservar`. -/
def SalaCine.reservar_asiento (s : SalaCine)
    (numero fila es_mayor_65 dia_espectador : PyVal) : Except CineError SalaCine := do
  validar_tipo_booleano es_mayor_65
  validar_tipo_booleano dia_espectador
  validar_entrada numero
  validar_entrada fila
  match modificarPrimero (fun a => a.reservar es_mayor_65 dia_espectador) numero fila s.asientos with
  | .ok l => .ok { s with asientos := l }
  | .error e => .error e

/-- `SalaCine.cancelar_reserva`: delegates to `buscar_asiento` (which
validates `numero` and `fila`) and to the found seat's
`cancelar_reserva`. -/
def SalaCine.cancelar_reserva (s : SalaCine) (numero fila : PyVal) :
    Except CineError SalaCine := do
  validar_entrada numero
  validar_entrada fila
  match modificarPrimero Asiento.cancelar_reserva numero fila s.asientos with
  | .ok l => .ok { s with asientos := l }
  | .error e => .error e

/-! ## Persistence layer

`guardar_estado` writes one text line per seat and `cargar_estado` parses
such lines back.  File lines are modelled as `List Char`. -/

/-- Decimal rendering of a natural number, as Python's `str`/`f`-string
prints a non-negative integer. -/
def natDecimal (n : ℕ) : List Char :=
  if n = 0 then ['0'] else ((Nat.digits 10 n).map Nat.digitChar).reverse

/-- The two fractional digits of Python's `:.2f` formatting, given the
scaled value `m` (hundredths). -/
def dosDigitos (m : ℕ) : List Char :=
  [Nat.digitChar (m / 10 % 10), Nat.digitChar (m % 10)]

/-- Round to the nearest integer, ties to even — the rounding `%.2f`
applies to the scaled value. -/
def roundHalfEven (q : ℚ) : ℤ :=
  let f := ⌊q⌋
  let r := q - (f : ℚ)
  if r < 1/2 then f
  else if 1/2 < r then f + 1
  else if Even f then f else f + 1

/-- Python's `f"{x:.2f}"` on a numeric value: the value rounded to
hundredths (ties to even), printed with exactly two fractional digits.
(For a nonzero value rounding to `0` Python would keep a `-` sign; no
such value arises in this program, where prices stay positive.) -/
def formatF2 (q : ℚ) : List Char :=
  let n := roundHalfEven (q * 100)
  let m := n.natAbs
  (if n < 0 then ['-'] else []) ++ natDecimal (m / 100) ++ ['.'] ++ dosDigitos (m % 100)

/-- Python's `str` on an interface value, as used by the f-string in
`guardar_estado`.  The `float` case is printed with two fractional
digits; Python prints the shortest round-tripping decimal instead, but
no theorem below depends on how a float-valued seat identity is
rendered. -/
def pyStr : PyVal → List Char
  | .int n => (if n < 0 then ['-'] else []) ++ natDecimal n.natAbs
  | .bool b => if b then ['T', 'r', 'u', 'e'] else ['F', 'a', 'l', 's', 'e']
  | .float q => formatF2 q
  | .str s => s.data

/-- The body of the write loop of `SalaCine.guardar_estado`:
`f"{asiento.fila},{asiento.numero},{estado},{asiento.precio_actual:.2f}\n"`
with `estado` the literal `Reservado` or `Disponible`. -/
def lineaDeAsiento (a : Asiento) : List Char :=
  let estado := if a.reservado then "Reservado".data else "Disponible".data
  pyStr a.fila ++ [','] ++ pyStr a.numero ++ [','] ++ estado ++ [','] ++
    formatF2 a.precio_actual ++ ['\n']

/-- `SalaCine.guardar_estado`: one line per seat, in list order. -/
def SalaCine.guardar_estado (s : SalaCine) : List (List Char) :=
  s.asientos.map lineaDeAsiento

/-- The whitespace characters Python's `str.strip()` removes (ASCII). -/
def esEspacio (c : Char) : Bool :=
  c = ' ' || c = '\t' || c = '\n' || c = '\r' || c = '\x0b' || c = '\x0c'

/-- Python's `str.strip()`: drop whitespace from both ends. -/
def stripChars (cs : List Char) : List Char :=
  ((cs.dropWhile esEspacio).reverse.dropWhile esEspacio).reverse

/-- Python's `str.split(sep)` for a one-character separator: split at
every occurrence, keeping empty parts. -/
def splitOnChar (sep : Char) : List Char → List (List Char)
  | [] => [[]]
  | c :: resto =>
    if c = sep then [] :: splitOnChar sep resto
    else
      match splitOnChar sep resto with
      | [] => [[c]]
      | p :: ps => (c :: p) :: ps

/-- Value of a decimal digit character, `none` on any other character. -/
def digitVal (c : Char) : Option ℕ :=
  if '0' ≤ c ∧ c ≤ '9' then some (c.toNat - 48) else none

/-- Accumulating decimal parser for a digit string. -/
def parseNatAux (acc : ℕ) : List Char → Option ℕ
  | [] => some acc
  | c :: resto =>
    match digitVal c with
    | some d => parseNatAux (10 * acc + d) resto
    | none => none

/-- Python's `int()` on a field string: an optional sign followed by at
least one decimal digit; anything else raises `ValueError`.  (Surrounding
whitespace was already stripped from the line.) -/
def parsePyInt (cs : List Char) : Except CineError ℤ :=
  match cs with
  | [] => .error .valueError
  | c :: resto =>
    if c = '-' then
      if resto = [] then .error .valueError
      else match parseNatAux 0 resto with
        | some n => .ok (-(n : ℤ))
        | none => .error .valueError
    else if c = '+' then
      if resto = [] then .error .valueError
      else match parseNatAux 0 resto with
        | some n => .ok ((n : ℤ))
        | none => .error .valueError
    else
      match parseNatAux 0 (c :: resto) with
      | some n => .ok ((n : ℤ))
      | none => .error .valueError

/-- The body of the read loop of `SalaCine.cargar_estado`: strip the
line, split on commas into exactly `fila, numero, estado, precio`
(`ValueError` otherwise), build a fresh seat from `int(numero)`,
`int(fila)` and the room's base price (the `precio` field is read but
never used), and re-reserve it with both flags `False` when the status
reads `Reservado`. -/
def SalaCine.cargar_linea (s : SalaCine) (linea : List Char) : Except CineError SalaCine :=
  match splitOnChar ',' (stripChars linea) with
  | [fila, numero, estado, _precio] => do
    let n ← parsePyInt numero
    let f ← parsePyInt fila
    let nuevo ← Asiento.init (.int n) (.int f) s.precio_base
    let nuevo ← if estado = "Reservado".data then nuevo.reservar (.bool false) (.bool false)
      else .ok nuevo
    .ok { s with asientos := s.asientos ++ [nuevo] }
  | _ => .error .valueError

/-- `SalaCine.cargar_estado`: process the file's lines in order,
appending one seat per line. -/
def SalaCine.cargar_estado (s : SalaCine) (lineas : List (List Char)) :
    Except CineError SalaCine :=
  lineas.foldlM SalaCine.cargar_linea s

/-! ## Derived predicates, reachability and example objects -/

/-- A Python value accepted by `validar_entrada`: a number strictly
greater than zero. -/
def esPositivo (v : PyVal) : Bool := v.isNum && decide (0 < v.toRat)

/-- No two seats of the list share the `(fila, numero)` identity, in the
sense of the lookup predicate `coincide`. -/
def sinDuplicados : List Asiento → Bool
  | [] => true
  | a :: resto => resto.all (fun b => !(coincide a.numero a.fila b)) && sinDuplicados resto

/-- Seat states reachable through the `Asiento` lifecycle: construction
followed by any sequence of successful `reservar` / `cancelar_reserva`
calls. -/
inductive ReachableAsiento : Asiento → Prop where
  | init (numero fila precio : PyVal) (a : Asiento) :
      Asiento.init numero fila precio = .ok a → ReachableAsiento a
  | reservar (a : Asiento) (m d : PyVal) (a2 : Asiento) :
      ReachableAsiento a → a.reservar m d = .ok a2 → ReachableAsiento a2
  | cancelar (a a2 : Asiento) :
      ReachableAsiento a → a.cancelar_reserva = .ok a2 → ReachableAsiento a2

/-- Room states reachable from `SalaCine.__init__` by the in-memory
mutating operations (`agregar_asiento`, `reservar_asiento`,
`cancelar_reserva`).  `cargar_estado` is not included here: it appends
seats without the duplicate check, which is exactly the exception the
uniqueness claim records. -/
inductive ReachableSala : SalaCine → Prop where
  | init (pb dd dm : PyVal) (s : SalaCine) :
      SalaCine.init pb dd dm = .ok s → ReachableSala s
  | agregar (s : SalaCine) (numero fila : PyVal) (s2 : SalaCine) :
      ReachableSala s → s.agregar_asiento numero fila = .ok s2 → ReachableSala s2
  | reservar (s : SalaCine) (numero fila m d : PyVal) (s2 : SalaCine) :
      ReachableSala s → s.reservar_asiento numero fila m d = .ok s2 → ReachableSala s2
  | cancelar (s : SalaCine) (numero fila : PyVal) (s2 : SalaCine) :
      ReachableSala s → s.cancelar_reserva numero fila = .ok s2 → ReachableSala s2

/-- The seat produced by reloading a persisted seat record into a room
whose base price is `pb`: identity and reservation flag preserved, both
price fields recomputed from `pb` (the persisted price is discarded). -/
def recargado (pb : PyVal) (a : Asiento) : Asiento :=
  { numero := a.numero, fila := a.fila, reservado := a.reservado,
    precio_base := pb.toRat, precio_actual := pb.toRat }

/-- A seat whose identity fields are positive Python ints, as produced by
`agregar_asiento` / `cargar_estado` on integer input. -/
def identEntera (a : Asiento) : Prop :=
  ∃ n f : ℤ, a.numero = .int n ∧ a.fila = .int f ∧ 0 < n ∧ 0 < f

/-- Example seat: `Asiento(1, 1, 10.0)`. -/
def asientoDiez : Asiento :=
  { numero := .int 1, fila := .int 1, reservado := false,
    precio_base := 10, precio_actual := 10 }

/-- Example room: `SalaCine(10.0, 0.20, 0.30)` with no seats yet. -/
def salaDiez : SalaCine :=
  { precio_base := .float 10, descuento_dia := .float (20/100),
    descuento_mayor_65 := .float (30/100), asientos := [] }

/-- Example room: `salaDiez` after `agregar_asiento(1, 1)`. -/
def salaDiezUno : SalaCine := { salaDiez with asientos := [asientoDiez] }

/-- Example seat: seat `(1, 1)` reserved at the discounted price `5.0`
against base price `10.0` (senior on spectator day). -/
def asientoCinco : Asiento :=
  { numero := .int 1, fila := .int 1, reservado := true,
    precio_base := 10, precio_actual := 5 }

/-- Example room holding the discounted reserved seat `asientoCinco`. -/
def salaConReserva : SalaCine := { salaDiez with asientos := [asientoCinco] }

instance {e a : Type} [DecidableEq e] [DecidableEq a] : DecidableEq (Except e a) := fun x y =>
  match x, y with
  | .ok u, .ok v =>
    if h : u = v then .isTrue (by rw [h]) else .isFalse (by intro hh; cases hh; exact h rfl)
  | .error u, .error v =>
    if h : u = v then .isTrue (by rw [h]) else .isFalse (by intro hh; cases hh; exact h rfl)
  | .ok _, .error _ => .isFalse (by intro hh; cases hh)
  | .error _, .ok _ => .isFalse (by intro hh; cases hh)

/-! ## Basic lemmas about the monadic plumbing and the validators -/

theorem exceptBind_ok {α β ε : Type} (x : α) (f : α → Except ε β) :
    (do let a ← Except.ok x; f a) = f x := rfl

theorem exceptBind_error {α β ε : Type} (e : ε) (f : α → Except ε β) :
    (do let a ← (Except.error e : Except ε α); f a) = Except.error e := rfl

theorem validar_entrada_ok {v : PyVal} :
    validar_entrada v = .ok () ↔ esPositivo v = true := by
  unfold validar_entrada esPositivo
  split
  · simp_all
  · split <;> simp_all

theorem validar_entrada_eq_error {v : PyVal} :
    validar_entrada v = .error .valueError ↔ esPositivo v = false := by
  unfold validar_entrada esPositivo
  split
  · simp_all
  · split <;> simp_all

theorem validar_tipo_booleano_eq_ok {v : PyVal} :
    validar_tipo_booleano v = .ok () ↔ ∃ b, v = .bool b := by
  cases v <;> simp [validar_tipo_booleano]

/-! ## Lemmas about `Asiento` -/

theorem Asiento.init_eq_ok {numero fila precio : PyVal} {a : Asiento} :
    Asiento.init numero fila precio = .ok a ↔
      (esPositivo numero = true ∧ esPositivo fila = true ∧ esPositivo precio = true ∧
       a = { numero := numero, fila := fila, reservado := false,
             precio_base := precio.toRat, precio_actual := precio.toRat }) := by
  unfold Asiento.init
  cases h1 : validar_entrada numero with
  | error e =>
    have h1f : esPositivo numero = false := by
      rcases h : esPositivo numero
      · rfl
      · rw [validar_entrada_ok.mpr h] at h1; cases h1
    simp [exceptBind_error, h1f]
  | ok u =>
    obtain ⟨⟩ := u
    have h1t := validar_entrada_ok.mp h1
    cases h2 : validar_entrada fila with
    | error e =>
      have h2f : esPositivo fila = false := by
        rcases h : esPositivo fila
        · rfl
        · rw [validar_entrada_ok.mpr h] at h2; cases h2
      simp [exceptBind_ok, exceptBind_error, h1t, h2f]
    | ok u2 =>
      obtain ⟨⟩ := u2
      have h2t := validar_entrada_ok.mp h2
      cases h3 : validar_entrada precio with
      | error e =>
        have h3f : esPositivo precio = false := by
          rcases h : esPositivo precio
          · rfl
          · rw [validar_entrada_ok.mpr h] at h3; cases h3
        simp [exceptBind_ok, exceptBind_error, h1t, h2t, h3f]
      | ok u3 =>
        obtain ⟨⟩ := u3
        have h3t := validar_entrada_ok.mp h3
        simp [exceptBind_ok, h1t, h2t, h3t, eq_comm]

theorem Asiento.reservar_ok_de_disponible {a : Asiento} (m d : Bool)
    (h : a.reservado = false) :
    a.reservar (.bool m) (.bool d) =
      .ok { a with precio_actual := calcular_precio a.precio_base d m, reservado := true } := by
  unfold Asiento.reservar validar_tipo_booleano
  simp [exceptBind_ok, h, pyTruthy]

theorem Asiento.reservar_eq_ok {a a2 : Asiento} {m d : PyVal}
    (h : a.reservar m d = .ok a2) :
    ∃ bm bd : Bool, m = .bool bm ∧ d = .bool bd ∧ a.reservado = false ∧
      a2 = { a with precio_actual := calcular_precio a.precio_base bd bm,
                    reservado := true } := by
  unfold Asiento.reservar validar_tipo_booleano at h
  cases m with
  | bool bm =>
    cases d with
    | bool bd =>
      cases hres : a.reservado with
      | true => rw [hres] at h; simp [exceptBind_ok] at h
      | false =>
        rw [hres] at h
        simp only [exceptBind_ok, Bool.false_eq_true, if_false, pyTruthy,
          Except.ok.injEq] at h
        exact ⟨bm, bd, rfl, rfl, rfl, h.symm⟩
    | int k => simp [exceptBind_ok, exceptBind_error] at h
    | float q => simp [exceptBind_ok, exceptBind_error] at h
    | str t => simp [exceptBind_ok, exceptBind_error] at h
  | int k => simp [exceptBind_error] at h
  | float q => simp [exceptBind_error] at h
  | str t => simp [exceptBind_error] at h

theorem Asiento.cancelar_eq (a : Asiento) :
    a.cancelar_reserva = if a.reservado = false then .error .asientoNoReservado
      else .ok { a with reservado := false, precio_actual := a.precio_base } := rfl

theorem calcular_precio_eq (p : ℚ) (d m : Bool) :
    calcular_precio p d m =
      p * (1 - ((20/100) * (if d then (1:ℚ) else 0) + (30/100) * (if m then (1:ℚ) else 0))) := by
  unfold calcular_precio
  cases d <;> cases m <;> norm_num

/-! ## Claims about the seat lifecycle (C1, C5, C6) -/

/-- C1: on a seat with `reservado = false` and positive base price, `reservar`
with any boolean flags succeeds, marks the seat reserved, and sets
`precio_actual = precio_base * (1 - (0.20*dia_espectador + 0.30*es_mayor_65))`;
in particular base price `10` with both flags yields `5`, and with no flags the
price stays at the base price. -/
theorem c1_reservar_formula_descuento (a : Asiento) (es_mayor dia : Bool)
    (hres : a.reservado = false) (hpos : 0 < a.precio_base) :
    ∃ a2, a.reservar (.bool es_mayor) (.bool dia) = .ok a2 ∧
      a2.reservado = true ∧
      a2.precio_actual = a.precio_base *
        (1 - ((20/100) * (if dia then (1:ℚ) else 0) +
              (30/100) * (if es_mayor then (1:ℚ) else 0))) ∧
      (a.precio_base = 10 → es_mayor = true → dia = true → a2.precio_actual = 5) ∧
      (es_mayor = false → dia = false → a2.precio_actual = a.precio_base) := by
  refine ⟨_, Asiento.reservar_ok_de_disponible es_mayor dia hres, rfl, ?_, ?_, ?_⟩
  · exact calcular_precio_eq _ dia es_mayor
  · rintro h10 rfl rfl
    show calcular_precio a.precio_base true true = 5
    unfold calcular_precio
    rw [h10]; norm_num
  · rintro rfl rfl
    show calcular_precio a.precio_base false false = a.precio_base
    unfold calcular_precio
    norm_num

/-- Witness for C1: the seat `Asiento(1, 1, 10.0)` with both flags true. -/
theorem c1_reservar_formula_descuento_witness :
    asientoDiez.reservado = false ∧ 0 < asientoDiez.precio_base ∧
    (∃ a2, asientoDiez.reservar (.bool true) (.bool true) = .ok a2 ∧
      a2.reservado = true ∧
      a2.precio_actual = asientoDiez.precio_base *
        (1 - ((20/100) * (if true then (1:ℚ) else 0) +
              (30/100) * (if true then (1:ℚ) else 0))) ∧
      (asientoDiez.precio_base = 10 → true = true → true = true → a2.precio_actual = 5) ∧
      (true = false → true = false → a2.precio_actual = asientoDiez.precio_base)) :=
  ⟨rfl, by norm_num [asientoDiez],
   c1_reservar_formula_descuento asientoDiez true true rfl (by norm_num [asientoDiez])⟩

/-- C5: with boolean flag arguments, `reservar` fails with
`AsientoReservadoError` exactly when the seat is currently reserved, and
`cancelar_reserva` fails with `AsientoNoReservadoError` exactly when it is not
reserved — for every seat state whatsoever. -/
theorem c5_condiciones_de_error (a : Asiento) (es_mayor dia : Bool) :
    (a.reservar (.bool es_mayor) (.bool dia) = .error .asientoReservado ↔
      a.reservado = true) ∧
    (a.cancelar_reserva = .error .asientoNoReservado ↔ a.reservado = false) := by
  constructor
  · cases hres : a.reservado
    · rw [Asiento.reservar_ok_de_disponible _ _ hres]
      simp
    · unfold Asiento.reservar validar_tipo_booleano
      simp [exceptBind_ok, hres]
  · rw [Asiento.cancelar_eq]
    cases hres : a.reservado <;> simp [hres]

/-- C6: reserving an available seat and then cancelling returns it to
`reservado = false` with `precio_actual = precio_base`; when the seat satisfied
the pricing invariant beforehand, the final state is exactly the initial
state. -/
theorem c6_reservar_cancelar_ida_y_vuelta (a : Asiento) (es_mayor dia : Bool)
    (hres : a.reservado = false) :
    ∃ a1 a2, a.reservar (.bool es_mayor) (.bool dia) = .ok a1 ∧
      a1.cancelar_reserva = .ok a2 ∧
      a2.reservado = false ∧ a2.precio_actual = a.precio_base ∧
      (a.precio_actual = a.precio_base → a2 = a) := by
  refine ⟨{ a with precio_actual := calcular_precio a.precio_base dia es_mayor, reservado := true }, { a with reservado := false, precio_actual := a.precio_base }, Asiento.reservar_ok_de_disponible es_mayor dia hres, ?_, rfl, rfl, ?_⟩
  · rw [Asiento.cancelar_eq]
    simp
  · intro hp
    cases a
    simp_all

/-! Further lemmas: cancellation inversion, room construction. -/

theorem Asiento.cancelar_eq_ok {a a2 : Asiento} (h : a.cancelar_reserva = .ok a2) :
    a.reservado = true ∧
      a2 = { a with reservado := false, precio_actual := a.precio_base } := by
  rw [Asiento.cancelar_eq] at h
  cases hres : a.reservado
  · rw [hres] at h; simp at h
  · rw [hres] at h
    simp only [Bool.true_eq_false, if_false, Except.ok.injEq] at h
    exact ⟨rfl, h.symm⟩

theorem pyEq_symm (a b : PyVal) : pyEq a b = pyEq b a := by
  cases a <;> cases b <;> simp [pyEq, eq_comm]

theorem SalaCine.init_ok_de {pb dd dm : PyVal}
    (hpb : esPositivo pb = true) (hdd : esPositivo dd = true)
    (hdm : esPositivo dm = true) (h1 : dd.toRat ≤ 1) (h2 : dm.toRat ≤ 1) :
    SalaCine.init pb dd dm =
      .ok { precio_base := pb, descuento_dia := dd, descuento_mayor_65 := dm,
            asientos := [] } := by
  unfold SalaCine.init
  rw [validar_entrada_ok.mpr hpb, exceptBind_ok, validar_entrada_ok.mpr hdd,
    exceptBind_ok, validar_entrada_ok.mpr hdm, exceptBind_ok, if_neg]
  push_neg
  exact ⟨h1, h2⟩

theorem SalaCine.init_error_de {pb dd dm : PyVal}
    (h : ¬(esPositivo pb = true ∧ esPositivo dd = true ∧ esPositivo dm = true ∧
           dd.toRat ≤ 1 ∧ dm.toRat ≤ 1)) :
    SalaCine.init pb dd dm = .error .valueError := by
  unfold SalaCine.init
  cases hpb : esPositivo pb
  · rw [validar_entrada_eq_error.mpr hpb, exceptBind_error]
  · rw [validar_entrada_ok.mpr hpb, exceptBind_ok]
    cases hdd : esPositivo dd
    · rw [validar_entrada_eq_error.mpr hdd, exceptBind_error]
    · rw [validar_entrada_ok.mpr hdd, exceptBind_ok]
      cases hdm : esPositivo dm
      · rw [validar_entrada_eq_error.mpr hdm, exceptBind_error]
      · rw [validar_entrada_ok.mpr hdm, exceptBind_ok, if_pos]
        by_contra hlt
        push_neg at hlt
        exact h ⟨hpb, hdd, hdm, hlt.1, hlt.2⟩

theorem SalaCine.init_inversion {pb dd dm : PyVal} {s : SalaCine}
    (h : SalaCine.init pb dd dm = .ok s) :
    esPositivo pb = true ∧ esPositivo dd = true ∧ esPositivo dm = true ∧
    dd.toRat ≤ 1 ∧ dm.toRat ≤ 1 ∧
    s = { precio_base := pb, descuento_dia := dd, descuento_mayor_65 := dm,
          asientos := [] } := by
  by_cases hc : esPositivo pb = true ∧ esPositivo dd = true ∧ esPositivo dm = true ∧
      dd.toRat ≤ 1 ∧ dm.toRat ≤ 1
  · obtain ⟨h1, h2, h3, h4, h5⟩ := hc
    rw [SalaCine.init_ok_de h1 h2 h3 h4 h5] at h
    cases h
    exact ⟨h1, h2, h3, h4, h5, rfl⟩
  · rw [SalaCine.init_error_de hc] at h
    cases h

/-! ## C4: the seat pricing invariant -/

/-- C4: in every seat state reachable from construction by `reservar` /
`cancelar_reserva`, `reservado = false` implies
`precio_actual = precio_base`; moreover construction initialises
`reservado = false` with `precio_actual = precio_base`, and a successful
cancellation restores both. -/
theorem c4_invariante_precio (a : Asiento) (h : ReachableAsiento a) :
    (a.reservado = false → a.precio_actual = a.precio_base) ∧
    (∀ numero fila precio : PyVal, ∀ a0 : Asiento,
      Asiento.init numero fila precio = .ok a0 →
      a0.reservado = false ∧ a0.precio_actual = a0.precio_base) ∧
    (∀ b b2 : Asiento, b.cancelar_reserva = .ok b2 →
      b2.reservado = false ∧ b2.precio_actual = b2.precio_base) := by
  refine ⟨?_, ?_, ?_⟩
  · induction h with
    | init numero fila precio a ha =>
      obtain ⟨-, -, -, rfl⟩ := Asiento.init_eq_ok.mp ha
      intro
      rfl
    | reservar a m d a2 ha hstep ih =>
      obtain ⟨bm, bd, -, -, -, rfl⟩ := Asiento.reservar_eq_ok hstep
      simp
    | cancelar a a2 ha hstep ih =>
      obtain ⟨-, rfl⟩ := Asiento.cancelar_eq_ok hstep
      intro
      rfl
  · intro numero fila precio a0 ha
    obtain ⟨-, -, -, rfl⟩ := Asiento.init_eq_ok.mp ha
    exact ⟨rfl, rfl⟩
  · intro b b2 hb
    obtain ⟨-, rfl⟩ := Asiento.cancelar_eq_ok hb
    exact ⟨rfl, rfl⟩

/-- Witness for C4: the freshly constructed seat `Asiento(1, 1, 10.0)` is
reachable and satisfies the invariant. -/
theorem c4_invariante_precio_witness :
    ReachableAsiento asientoDiez ∧
    (asientoDiez.reservado = false → asientoDiez.precio_actual = asientoDiez.precio_base) :=
  ⟨.init (.int 1) (.int 1) (.float 10) asientoDiez rfl,
   (c4_invariante_precio asientoDiez
     (.init (.int 1) (.int 1) (.float 10) asientoDiez rfl)).1⟩

/-! ## C8: room construction validation -/

/-- C8: `SalaCine.__init__` on numeric arguments fails with `ValueError`
exactly when the base price or either discount is not strictly positive
(a discount of exactly `0` is rejected) or either discount exceeds `1`,
and succeeds with an empty seat list exactly when all three are strictly
positive and both discounts are at most `1`. -/
theorem c8_validacion_constructor_sala (pb dd dm : PyVal)
    (hpb : pb.isNum = true) (hdd : dd.isNum = true) (hdm : dm.isNum = true) :
    (SalaCine.init pb dd dm =
        .ok { precio_base := pb, descuento_dia := dd, descuento_mayor_65 := dm,
              asientos := [] } ↔
      (0 < pb.toRat ∧ 0 < dd.toRat ∧ 0 < dm.toRat ∧ dd.toRat ≤ 1 ∧ dm.toRat ≤ 1)) ∧
    (SalaCine.init pb dd dm = .error .valueError ↔
      ¬(0 < pb.toRat ∧ 0 < dd.toRat ∧ 0 < dm.toRat ∧ dd.toRat ≤ 1 ∧ dm.toRat ≤ 1)) := by
  have hp : ∀ v : PyVal, v.isNum = true → (esPositivo v = true ↔ 0 < v.toRat) := by
    intro v hv
    simp [esPositivo, hv]
  constructor
  · constructor
    · intro h
      obtain ⟨h1, h2, h3, h4, h5, -⟩ := SalaCine.init_inversion h
      exact ⟨(hp pb hpb).mp h1, (hp dd hdd).mp h2, (hp dm hdm).mp h3, h4, h5⟩
    · rintro ⟨h1, h2, h3, h4, h5⟩
      exact SalaCine.init_ok_de ((hp pb hpb).mpr h1) ((hp dd hdd).mpr h2)
        ((hp dm hdm).mpr h3) h4 h5
  · constructor
    · intro h hc
      obtain ⟨h1, h2, h3, h4, h5⟩ := hc
      rw [SalaCine.init_ok_de ((hp pb hpb).mpr h1) ((hp dd hdd).mpr h2)
        ((hp dm hdm).mpr h3) h4 h5] at h
      cases h
    · intro hc
      refine SalaCine.init_error_de ?_
      intro hcc
      obtain ⟨h1, h2, h3, h4, h5⟩ := hcc
      exact hc ⟨(hp pb hpb).mp h1, (hp dd hdd).mp h2, (hp dm hdm).mp h3, h4, h5⟩

/-- Witness for C8: `SalaCine(10.0, 0.20, 0.30)` (all numeric) satisfies both
characterisations. -/
theorem c8_validacion_constructor_sala_witness :
    (PyVal.float 10).isNum = true ∧ (PyVal.float (20/100)).isNum = true ∧
    (PyVal.float (30/100)).isNum = true ∧
    (SalaCine.init (.float 10) (.float (20/100)) (.float (30/100)) =
        .ok { precio_base := .float 10, descuento_dia := .float (20/100),
              descuento_mayor_65 := .float (30/100), asientos := [] } ↔
      (0 < (PyVal.float 10).toRat ∧ 0 < (PyVal.float (20/100)).toRat ∧
       0 < (PyVal.float (30/100)).toRat ∧ (PyVal.float (20/100)).toRat ≤ 1 ∧
       (PyVal.float (30/100)).toRat ≤ 1)) :=
  ⟨rfl, rfl, rfl,
   (c8_validacion_constructor_sala (.float 10) (.float (20/100)) (.float (30/100))
     rfl rfl rfl).1⟩

/-! ## Lemmas about `modificarPrimero` and the room operations -/

theorem modificarPrimero_eq_ok {f : Asiento → Except CineError Asiento}
    {numero fila : PyVal} {l l2 : List Asiento}
    (h : modificarPrimero f numero fila l = .ok l2) :
    ∃ i a a2, l[i]? = some a ∧ coincide numero fila a = true ∧ f a = .ok a2 ∧
      l2 = l.set i a2 ∧
      ∀ j b, j < i → l[j]? = some b → coincide numero fila b = false := by
  induction l generalizing l2 with
  | nil => simp [modificarPrimero] at h
  | cons a resto ih =>
    unfold modificarPrimero at h
    by_cases hc : coincide numero fila a = true
    · rw [if_pos hc] at h
      cases hfa : f a with
      | ok a2 =>
        rw [hfa] at h
        cases h
        exact ⟨0, a, a2, by simp, hc, hfa, rfl, fun j b hj _ => absurd hj (by omega)⟩
      | error e => rw [hfa] at h; cases h
    · rw [if_neg hc] at h
      cases hrec : modificarPrimero f numero fila resto with
      | ok resto2 =>
        rw [hrec] at h
        cases h
        obtain ⟨i, b, b2, hget, hcoin, hfb, hset, hprev⟩ := ih hrec
        refine ⟨i + 1, b, b2, by simpa using hget, hcoin, hfb, by simp [hset], ?_⟩
        intro j c hj hgc
        cases j with
        | zero =>
          simp at hgc
          cases hgc
          exact Bool.not_eq_true _ ▸ (by simpa using hc)
        | succ j =>
          exact hprev j c (by omega) (by simpa using hgc)
      | error e => rw [hrec] at h; cases h

theorem SalaCine.reservar_asiento_eq_ok {s s2 : SalaCine} {numero fila m d : PyVal}
    (h : s.reservar_asiento numero fila m d = .ok s2) :
    s2.precio_base = s.precio_base ∧ s2.descuento_dia = s.descuento_dia ∧
    s2.descuento_mayor_65 = s.descuento_mayor_65 ∧
    modificarPrimero (fun a => a.reservar m d) numero fila s.asientos = .ok s2.asientos := by
  unfold SalaCine.reservar_asiento at h
  cases h1 : validar_tipo_booleano m with
  | error e => rw [h1, exceptBind_error] at h; cases h
  | ok u =>
    obtain ⟨⟩ := u
    rw [h1, exceptBind_ok] at h
    cases h2 : validar_tipo_booleano d with
    | error e => rw [h2, exceptBind_error] at h; cases h
    | ok u2 =>
      obtain ⟨⟩ := u2
      rw [h2, exceptBind_ok] at h
      cases h3 : validar_entrada numero with
      | error e => rw [h3, exceptBind_error] at h; cases h
      | ok u3 =>
        obtain ⟨⟩ := u3
        rw [h3, exceptBind_ok] at h
        cases h4 : validar_entrada fila with
        | error e => rw [h4, exceptBind_error] at h; cases h
        | ok u4 =>
          obtain ⟨⟩ := u4
          rw [h4, exceptBind_ok] at h
          cases h5 : modificarPrimero (fun a => a.reservar m d) numero fila s.asientos with
          | ok l => rw [h5] at h; cases h; exact ⟨rfl, rfl, rfl, rfl⟩
          | error e => rw [h5] at h; cases h

theorem SalaCine.cancelar_reserva_eq_ok {s s2 : SalaCine} {numero fila : PyVal}
    (h : s.cancelar_reserva numero fila = .ok s2) :
    s2.precio_base = s.precio_base ∧ s2.descuento_dia = s.descuento_dia ∧
    s2.descuento_mayor_65 = s.descuento_mayor_65 ∧
    modificarPrimero Asiento.cancelar_reserva numero fila s.asientos = .ok s2.asientos := by
  unfold SalaCine.cancelar_reserva at h
  cases h3 : validar_entrada numero with
  | error e => rw [h3, exceptBind_error] at h; cases h
  | ok u3 =>
    obtain ⟨⟩ := u3
    rw [h3, exceptBind_ok] at h
    cases h4 : validar_entrada fila with
    | error e => rw [h4, exceptBind_error] at h; cases h
    | ok u4 =>
      obtain ⟨⟩ := u4
      rw [h4, exceptBind_ok] at h
      cases h5 : modificarPrimero Asiento.cancelar_reserva numero fila s.asientos with
      | ok l => rw [h5] at h; cases h; exact ⟨rfl, rfl, rfl, rfl⟩
      | error e => rw [h5] at h; cases h

theorem SalaCine.agregar_eq_ok {s s2 : SalaCine} {numero fila : PyVal}
    (h : s.agregar_asiento numero fila = .ok s2) :
    esPositivo numero = true ∧ esPositivo fila = true ∧
    s.asientos.any (coincide numero fila) = false ∧
    ∃ nuevo, Asiento.init numero fila s.precio_base = .ok nuevo ∧
      nuevo.numero = numero ∧ nuevo.fila = fila ∧
      s2 = { s with asientos := s.asientos ++ [nuevo] } := by
  unfold SalaCine.agregar_asiento at h
  cases h1 : validar_entrada numero with
  | error e => rw [h1, exceptBind_error] at h; cases h
  | ok u =>
    obtain ⟨⟩ := u
    rw [h1, exceptBind_ok] at h
    cases h2 : validar_entrada fila with
    | error e => rw [h2, exceptBind_error] at h; cases h
    | ok u2 =>
      obtain ⟨⟩ := u2
      rw [h2, exceptBind_ok] at h
      by_cases hany : s.asientos.any (coincide numero fila) = true
      · rw [if_pos hany] at h; cases h
      · rw [if_neg hany] at h
        cases h3 : Asiento.init numero fila s.precio_base with
        | error e => rw [h3, exceptBind_error] at h; cases h
        | ok nuevo =>
          rw [h3, exceptBind_ok] at h
          cases h
          obtain ⟨-, -, -, hn⟩ := Asiento.init_eq_ok.mp h3
          exact ⟨validar_entrada_ok.mp h1, validar_entrada_ok.mp h2,
            by simpa using hany, nuevo, rfl,
            by rw [hn], by rw [hn], rfl⟩

/-! Key-preservation: `reservar` and `cancelar_reserva` never change a seat's
identity or base price, so replacing the first match preserves the lists of
seat numbers and rows. -/

theorem Asiento.reservar_conserva_clave {a a2 : Asiento} {m d : PyVal}
    (h : a.reservar m d = .ok a2) :
    a2.numero = a.numero ∧ a2.fila = a.fila ∧ a2.precio_base = a.precio_base := by
  obtain ⟨bm, bd, -, -, -, rfl⟩ := Asiento.reservar_eq_ok h
  exact ⟨rfl, rfl, rfl⟩

theorem Asiento.cancelar_conserva_clave {a a2 : Asiento}
    (h : a.cancelar_reserva = .ok a2) :
    a2.numero = a.numero ∧ a2.fila = a.fila ∧ a2.precio_base = a.precio_base := by
  obtain ⟨-, rfl⟩ := Asiento.cancelar_eq_ok h
  exact ⟨rfl, rfl, rfl⟩

theorem set_de_mismo {α : Type} {l : List α} {i : ℕ} {x : α} (h : l[i]? = some x) :
    l.set i x = l := by
  induction l generalizing i with
  | nil => simp at h
  | cons b resto ih =>
    cases i with
    | zero => simp_all
    | succ i =>
      simp at h
      simp [ih h]

theorem set_conserva_claves {l : List Asiento} {i : ℕ} {a a2 : Asiento}
    (hget : l[i]? = some a) (hn : a2.numero = a.numero) (hf : a2.fila = a.fila) :
    (l.set i a2).map Asiento.numero = l.map Asiento.numero ∧
    (l.set i a2).map Asiento.fila = l.map Asiento.fila := by
  refine ⟨?_, ?_⟩
  · rw [List.map_set, hn]
    apply set_de_mismo
    simp [hget]
  · rw [List.map_set, hf]
    apply set_de_mismo
    simp [hget]

theorem all_coincide_de_claves {l l2 : List Asiento} (n f : PyVal)
    (hn : l2.map Asiento.numero = l.map Asiento.numero)
    (hf : l2.map Asiento.fila = l.map Asiento.fila) :
    l2.all (fun b => !(coincide n f b)) = l.all (fun b => !(coincide n f b)) := by
  induction l generalizing l2 with
  | nil =>
    cases l2 with
    | nil => rfl
    | cons b r => simp at hn
  | cons a resto ih =>
    cases l2 with
    | nil => simp at hn
    | cons b resto2 =>
      simp only [List.map_cons, List.cons.injEq] at hn hf
      have ih2 := ih hn.2 hf.2
      simp only [coincide] at ih2 ⊢
      simp only [List.all_cons, hn.1, hf.1, ih2]

theorem sinDuplicados_de_claves {l l2 : List Asiento}
    (hn : l2.map Asiento.numero = l.map Asiento.numero)
    (hf : l2.map Asiento.fila = l.map Asiento.fila) :
    sinDuplicados l2 = sinDuplicados l := by
  induction l generalizing l2 with
  | nil =>
    cases l2 with
    | nil => rfl
    | cons b r => simp at hn
  | cons a resto ih =>
    cases l2 with
    | nil => simp at hn
    | cons b resto2 =>
      simp only [List.map_cons, List.cons.injEq] at hn hf
      simp only [sinDuplicados, hn.1, hf.1, ih hn.2 hf.2,
        all_coincide_de_claves a.numero a.fila hn.2 hf.2]

theorem sinDuplicados_append {l : List Asiento} {x : Asiento}
    (hl : sinDuplicados l = true)
    (hx : ∀ b ∈ l, coincide b.numero b.fila x = false) :
    sinDuplicados (l ++ [x]) = true := by
  induction l with
  | nil => rfl
  | cons a resto ih =>
    simp only [sinDuplicados, Bool.and_eq_true] at hl
    have h1 : coincide a.numero a.fila x = false := hx a (List.mem_cons_self a resto)
    have h2 := ih hl.2 (fun b hb => hx b (List.mem_cons_of_mem a hb))
    simp only [List.cons_append, sinDuplicados, Bool.and_eq_true]
    refine ⟨?_, h2⟩
    simp [List.all_append, hl.1, h1]

/-- Witness for C6: the seat `Asiento(1, 1, 10.0)` with only the senior flag. -/
theorem c6_reservar_cancelar_ida_y_vuelta_witness :
    asientoDiez.reservado = false ∧
    (∃ a1 a2, asientoDiez.reservar (.bool true) (.bool false) = .ok a1 ∧
      a1.cancelar_reserva = .ok a2 ∧
      a2.reservado = false ∧ a2.precio_actual = asientoDiez.precio_base ∧
      (asientoDiez.precio_actual = asientoDiez.precio_base → a2 = asientoDiez)) :=
  ⟨rfl, c6_reservar_cancelar_ida_y_vuelta asientoDiez true false rfl⟩

/-! ## Reachability invariants of the room -/

theorem ReachableSala.precio_base_positivo {s : SalaCine} (hs : ReachableSala s) :
    esPositivo s.precio_base = true := by
  induction hs with
  | init pb dd dm s h =>
    obtain ⟨h1, -, -, -, -, rfl⟩ := SalaCine.init_inversion h
    exact h1
  | agregar s numero fila s2 hs hstep ih =>
    obtain ⟨-, -, -, nuevo, -, -, -, rfl⟩ := SalaCine.agregar_eq_ok hstep
    exact ih
  | reservar s numero fila m d s2 hs hstep ih =>
    obtain ⟨hpb, -, -, -⟩ := SalaCine.reservar_asiento_eq_ok hstep
    rw [hpb]; exact ih
  | cancelar s numero fila s2 hs hstep ih =>
    obtain ⟨hpb, -, -, -⟩ := SalaCine.cancelar_reserva_eq_ok hstep
    rw [hpb]; exact ih

theorem ReachableSala.sin_duplicados {s : SalaCine} (hs : ReachableSala s) :
    sinDuplicados s.asientos = true := by
  induction hs with
  | init pb dd dm s h =>
    obtain ⟨-, -, -, -, -, rfl⟩ := SalaCine.init_inversion h
    rfl
  | agregar s numero fila s2 hs hstep ih =>
    obtain ⟨-, -, hany, nuevo, -, hnum, hfila, rfl⟩ := SalaCine.agregar_eq_ok hstep
    refine sinDuplicados_append ih ?_
    intro b hb
    have hb2 : coincide numero fila b = false := by
      have hall := List.any_eq_false.mp hany
      simpa using hall b hb
    unfold coincide at hb2 ⊢
    rw [hnum, hfila, pyEq_symm numero b.numero, pyEq_symm fila b.fila]
    exact hb2
  | reservar s numero fila m d s2 hs hstep ih =>
    obtain ⟨-, -, -, hmod⟩ := SalaCine.reservar_asiento_eq_ok hstep
    obtain ⟨i, a, a2, hget, -, hfa, hset, -⟩ := modificarPrimero_eq_ok hmod
    obtain ⟨hn, hf, -⟩ := Asiento.reservar_conserva_clave hfa
    obtain ⟨e1, e2⟩ := set_conserva_claves hget hn hf
    rw [hset, sinDuplicados_de_claves e1 e2]
    exact ih
  | cancelar s numero fila s2 hs hstep ih =>
    obtain ⟨-, -, -, hmod⟩ := SalaCine.cancelar_reserva_eq_ok hstep
    obtain ⟨i, a, a2, hget, -, hfa, hset, -⟩ := modificarPrimero_eq_ok hmod
    obtain ⟨hn, hf, -⟩ := Asiento.cancelar_conserva_clave hfa
    obtain ⟨e1, e2⟩ := set_conserva_claves hget hn hf
    rw [hset, sinDuplicados_de_claves e1 e2]
    exact ih

theorem SalaCine.agregar_eval {s : SalaCine} {numero fila : PyVal}
    (hn : esPositivo numero = true) (hf : esPositivo fila = true) :
    s.agregar_asiento numero fila =
      (if s.asientos.any (coincide numero fila) then .error .asientoDuplicado
       else do
         let nuevo ← Asiento.init numero fila s.precio_base
         .ok { s with asientos := s.asientos ++ [nuevo] }) := by
  unfold SalaCine.agregar_asiento
  rw [validar_entrada_ok.mpr hn, exceptBind_ok, validar_entrada_ok.mpr hf, exceptBind_ok]

/-! ## C3: uniqueness of seat identities -/

/-- C3: every room state reachable from construction through the in-memory
operations (`agregar_asiento`, `reservar_asiento`, `cancelar_reserva` — the
operations that go through the duplicate check; `cargar_estado` appends
without it) has pairwise distinct `(fila, numero)` seat identities; and on
such a state, for positive numeric arguments, `agregar_asiento` fails with
`AsientoDuplicadoError` exactly when a seat with that identity already exists
(whatever its price), and otherwise appends the freshly constructed seat at
the end of the list, preserving the existing order. -/
theorem c3_unicidad_asientos (s : SalaCine) (hs : ReachableSala s)
    (numero fila : PyVal) (hn : esPositivo numero = true)
    (hf : esPositivo fila = true) :
    sinDuplicados s.asientos = true ∧
    (s.agregar_asiento numero fila = .error .asientoDuplicado ↔
      s.asientos.any (coincide numero fila) = true) ∧
    (s.asientos.any (coincide numero fila) = false →
      ∃ nuevo, Asiento.init numero fila s.precio_base = .ok nuevo ∧
        nuevo.numero = numero ∧ nuevo.fila = fila ∧
        s.agregar_asiento numero fila =
          .ok { s with asientos := s.asientos ++ [nuevo] }) := by
  have hpb := hs.precio_base_positivo
  refine ⟨hs.sin_duplicados, ?_, ?_⟩
  · by_cases hany : s.asientos.any (coincide numero fila) = true
    · rw [SalaCine.agregar_eval hn hf, if_pos hany]
      simp [hany]
    · rw [SalaCine.agregar_eval hn hf, if_neg hany,
        Asiento.init_eq_ok.mpr ⟨hn, hf, hpb, rfl⟩, exceptBind_ok]
      simp [hany]
  · intro hany
    refine ⟨_, Asiento.init_eq_ok.mpr ⟨hn, hf, hpb, rfl⟩, rfl, rfl, ?_⟩
    rw [SalaCine.agregar_eval hn hf, if_neg (by simp [hany]),
      Asiento.init_eq_ok.mpr ⟨hn, hf, hpb, rfl⟩, exceptBind_ok]

/-- Witness for C3: the freshly constructed room `SalaCine(10.0, 0.20, 0.30)`
is reachable, the arguments are positive, and the invariant holds there. -/
theorem c3_unicidad_asientos_witness :
    ReachableSala salaDiez ∧ esPositivo (PyVal.int 1) = true ∧
    sinDuplicados salaDiez.asientos = true := by
  have h10 : esPositivo (PyVal.float 10) = true := by decide
  have h20 : esPositivo (PyVal.float (20/100)) = true := by
    simp only [esPositivo, PyVal.isNum, PyVal.toRat, Bool.true_and,
      decide_eq_true_eq]
    norm_num
  have h30 : esPositivo (PyVal.float (30/100)) = true := by
    simp only [esPositivo, PyVal.isNum, PyVal.toRat, Bool.true_and,
      decide_eq_true_eq]
    norm_num
  have hle20 : (PyVal.float (20/100)).toRat ≤ 1 := by
    simp only [PyVal.toRat]
    norm_num
  have hle30 : (PyVal.float (30/100)).toRat ≤ 1 := by
    simp only [PyVal.toRat]
    norm_num
  have hreach : ReachableSala salaDiez :=
    .init (.float 10) (.float (20/100)) (.float (30/100)) salaDiez
      (SalaCine.init_ok_de h10 h20 h30 hle20 hle30)
  exact ⟨hreach, rfl,
    (c3_unicidad_asientos salaDiez hreach (.int 1) (.int 1) rfl rfl).1⟩

/-! ## C9: frame property of the targeted room operations -/

theorem modificarPrimero_marco {f : Asiento → Except CineError Asiento}
    (hid : ∀ a a2, f a = .ok a2 →
      a2.numero = a.numero ∧ a2.fila = a.fila ∧ a2.precio_base = a.precio_base)
    {numero fila : PyVal} {l l2 : List Asiento}
    (h : modificarPrimero f numero fila l = .ok l2) :
    l2.length = l.length ∧
    ∃ i a a2, l[i]? = some a ∧ coincide numero fila a = true ∧
      a2.numero = a.numero ∧ a2.fila = a.fila ∧ a2.precio_base = a.precio_base ∧
      l2 = l.set i a2 ∧ ∀ j, j ≠ i → l2[j]? = l[j]? := by
  obtain ⟨i, a, a2, hget, hcoin, hfa, hset, -⟩ := modificarPrimero_eq_ok h
  obtain ⟨hn, hf2, hpb⟩ := hid a a2 hfa
  subst hset
  exact ⟨List.length_set l i a2, i, a, a2, hget, hcoin, hn, hf2, hpb, rfl,
    fun j hj => List.getElem?_set_ne (Ne.symm hj)⟩

/-- C9: a successful `reservar_asiento` or `cancelar_reserva` changes at most
the first seat matching `(fila, numero)` — and only its `reservado` /
`precio_actual` fields — leaving every other seat, the list length and order,
and the room's price and discount configuration untouched.  (On an error the
embedding returns no new state at all: in the source every mutation site sits
after the last possible `raise`, so a failing call leaves the room
unchanged.) -/
theorem c9_marco_operaciones :
    (∀ (s s2 : SalaCine) (numero fila m d : PyVal),
      s.reservar_asiento numero fila m d = .ok s2 →
      s2.precio_base = s.precio_base ∧ s2.descuento_dia = s.descuento_dia ∧
      s2.descuento_mayor_65 = s.descuento_mayor_65 ∧
      s2.asientos.length = s.asientos.length ∧
      ∃ i a a2, s.asientos[i]? = some a ∧ coincide numero fila a = true ∧
        a2.numero = a.numero ∧ a2.fila = a.fila ∧ a2.precio_base = a.precio_base ∧
        s2.asientos = s.asientos.set i a2 ∧
        ∀ j, j ≠ i → s2.asientos[j]? = s.asientos[j]?) ∧
    (∀ (s s2 : SalaCine) (numero fila : PyVal),
      s.cancelar_reserva numero fila = .ok s2 →
      s2.precio_base = s.precio_base ∧ s2.descuento_dia = s.descuento_dia ∧
      s2.descuento_mayor_65 = s.descuento_mayor_65 ∧
      s2.asientos.length = s.asientos.length ∧
      ∃ i a a2, s.asientos[i]? = some a ∧ coincide numero fila a = true ∧
        a2.numero = a.numero ∧ a2.fila = a.fila ∧ a2.precio_base = a.precio_base ∧
        s2.asientos = s.asientos.set i a2 ∧
        ∀ j, j ≠ i → s2.asientos[j]? = s.asientos[j]?) := by
  constructor
  · intro s s2 numero fila m d h
    obtain ⟨h1, h2, h3, hmod⟩ := SalaCine.reservar_asiento_eq_ok h
    obtain ⟨hlen, rest⟩ :=
      modificarPrimero_marco (fun a a2 ha => Asiento.reservar_conserva_clave ha) hmod
    exact ⟨h1, h2, h3, hlen, rest⟩
  · intro s s2 numero fila h
    obtain ⟨h1, h2, h3, hmod⟩ := SalaCine.cancelar_reserva_eq_ok h
    obtain ⟨hlen, rest⟩ :=
      modificarPrimero_marco (fun a a2 ha => Asiento.cancelar_conserva_clave ha) hmod
    exact ⟨h1, h2, h3, hlen, rest⟩

/-- Witness for C9: reserving seat `(1, 1)` in the one-seat room built from
`SalaCine(10.0, 0.20, 0.30)` succeeds and the frame conclusion holds for it. -/
theorem c9_marco_operaciones_witness :
    ∃ s2, salaDiezUno.reservar_asiento (.int 1) (.int 1) (.bool false) (.bool false) = .ok s2 ∧
      s2.precio_base = salaDiezUno.precio_base ∧
      s2.descuento_dia = salaDiezUno.descuento_dia ∧
      s2.descuento_mayor_65 = salaDiezUno.descuento_mayor_65 ∧
      s2.asientos.length = salaDiezUno.asientos.length := by
  have hres : salaDiezUno.reservar_asiento (.int 1) (.int 1) (.bool false) (.bool false) =
      .ok { salaDiezUno with asientos := [{ asientoDiez with precio_actual := calcular_precio asientoDiez.precio_base false false, reservado := true }] } := by
    rfl
  obtain ⟨h1, h2, h3, h4, -⟩ :=
    c9_marco_operaciones.1 salaDiezUno _ (.int 1) (.int 1) (.bool false) (.bool false) hres
  exact ⟨_, hres, h1, h2, h3, h4⟩

/-! ## C10: the boolean/number type-check asymmetry -/

/-- C10: `validar_entrada` accepts the boolean `True` where a positive number
is required (Python booleans are a numeric subtype), so
`agregar_asiento(True, 1)` succeeds and creates a seat whose `numero`
compares equal to `1`; while `validar_tipo_booleano` rejects the integer `1`,
so `reservar(1, 1)` on an available seat fails with `ValueError`. -/
theorem c10_asimetria_tipos :
    (validar_entrada (.bool true) = .ok ()) ∧
    (validar_tipo_booleano (.int 1) = .error .valueError) ∧
    (∃ s2, salaDiez.agregar_asiento (.bool true) (.int 1) = .ok s2 ∧
      s2.asientos.length = 1 ∧
      ∀ a ∈ s2.asientos, pyEq a.numero (.int 1) = true) ∧
    (∃ a, Asiento.init (.int 1) (.int 1) (.float 10) = .ok a ∧ a.reservado = false ∧
      a.reservar (.int 1) (.int 1) = .error .valueError) := by
  refine ⟨rfl, rfl, ⟨_, rfl, rfl, ?_⟩, ⟨asientoDiez, rfl, rfl, rfl⟩⟩
  decide

/-! ## Decimal rendering and parsing lemmas -/

theorem digitVal_digitChar {d : ℕ} (h : d < 10) :
    digitVal (Nat.digitChar d) = some d := by
  interval_cases d <;> decide

theorem digitChar_buen {d : ℕ} (h : d < 10) :
    Nat.digitChar d ≠ ',' ∧ esEspacio (Nat.digitChar d) = false ∧
    Nat.digitChar d ≠ '.' ∧ Nat.digitChar d ≠ '-' ∧ Nat.digitChar d ≠ '+' := by
  interval_cases d <;> decide

theorem natDecimal_mem {n : ℕ} {c : Char} (hc : c ∈ natDecimal n) :
    ∃ d, d < 10 ∧ c = Nat.digitChar d := by
  unfold natDecimal at hc
  split at hc
  · simp at hc
    exact ⟨0, by omega, hc⟩
  · simp only [List.mem_reverse, List.mem_map] at hc
    obtain ⟨d, hd, rfl⟩ := hc
    exact ⟨d, Nat.digits_lt_base (by norm_num) hd, rfl⟩

theorem natDecimal_ne_nil (n : ℕ) : natDecimal n ≠ [] := by
  unfold natDecimal
  split
  · simp
  · rename_i hn
    simp only [ne_eq, List.reverse_eq_nil_iff, List.map_eq_nil_iff]
    exact Nat.digits_ne_nil_iff_ne_zero.mpr hn

theorem parseNatAux_append (acc : ℕ) (l1 l2 : List Char) :
    parseNatAux acc (l1 ++ l2) =
      match parseNatAux acc l1 with
      | some a => parseNatAux a l2
      | none => none := by
  induction l1 generalizing acc with
  | nil => rfl
  | cons c resto ih =>
    simp only [List.cons_append, parseNatAux]
    cases hdv : digitVal c with
    | some d => simp [ih]
    | none => rfl

theorem parseNatAux_digits (D : List ℕ) (hD : ∀ d ∈ D, d < 10) (acc : ℕ) :
    parseNatAux acc ((D.map Nat.digitChar).reverse) =
      some (acc * 10 ^ D.length + Nat.ofDigits 10 D) := by
  induction D generalizing acc with
  | nil => simp [parseNatAux, Nat.ofDigits]
  | cons d resto ih =>
    have hd : d < 10 := hD d (List.mem_cons_self d resto)
    have hresto : ∀ x ∈ resto, x < 10 := fun x hx => hD x (List.mem_cons_of_mem d hx)
    simp only [List.map_cons, List.reverse_cons]
    rw [parseNatAux_append, ih hresto acc]
    show parseNatAux (acc * 10 ^ resto.length + Nat.ofDigits 10 resto)
      [Nat.digitChar d] = _
    simp only [parseNatAux, digitVal_digitChar hd]
    congr 1
    rw [Nat.ofDigits_cons, List.length_cons, pow_succ]
    ring

theorem parseNatAux_natDecimal (n : ℕ) : parseNatAux 0 (natDecimal n) = some n := by
  unfold natDecimal
  split
  · rename_i hz
    subst hz
    decide
  · rw [parseNatAux_digits (Nat.digits 10 n) (fun d hd => Nat.digits_lt_base (by norm_num) hd) 0]
    rw [Nat.ofDigits_digits]
    simp

theorem parsePyInt_natDecimal {m : ℕ} (hm : 0 < m) :
    parsePyInt (natDecimal m) = .ok (m : ℤ) := by
  cases hnd : natDecimal m with
  | nil => exact absurd hnd (natDecimal_ne_nil m)
  | cons c rest =>
    have hmem : c ∈ natDecimal m := by rw [hnd]; exact List.mem_cons_self c rest
    obtain ⟨d, hd, rfl⟩ := natDecimal_mem hmem
    obtain ⟨-, -, -, hminus, hplus⟩ := digitChar_buen hd
    simp only [parsePyInt]
    rw [if_neg hminus, if_neg hplus, ← hnd, parseNatAux_natDecimal]

/-! ## Splitting and stripping lemmas -/

theorem splitOnChar_sin_sep {sep : Char} {l : List Char} (h : ∀ c ∈ l, c ≠ sep) :
    splitOnChar sep l = [l] := by
  induction l with
  | nil => rfl
  | cons c resto ih =>
    simp only [splitOnChar]
    rw [if_neg (h c (List.mem_cons_self c resto)),
      ih (fun x hx => h x (List.mem_cons_of_mem c hx))]

theorem splitOnChar_append {sep : Char} {l1 l2 : List Char} (h : ∀ c ∈ l1, c ≠ sep) :
    splitOnChar sep (l1 ++ sep :: l2) = l1 :: splitOnChar sep l2 := by
  induction l1 with
  | nil =>
    simp [splitOnChar]
  | cons c resto ih =>
    simp only [List.cons_append, splitOnChar, List.append_eq]
    rw [if_neg (h c (List.mem_cons_self c resto)),
      ih (fun x hx => h x (List.mem_cons_of_mem c hx))]

theorem dropWhile_de_bueno {p : Char → Bool} {l : List Char}
    (h : ∀ c ∈ l, p c = false) : l.dropWhile p = l := by
  cases l with
  | nil => rfl
  | cons c resto =>
    rw [List.dropWhile_cons, if_neg]
    simp [h c (List.mem_cons_self c resto)]

theorem stripChars_linea {body : List Char} (h : ∀ c ∈ body, esEspacio c = false) :
    stripChars (body ++ ['\n']) = body := by
  cases body with
  | nil => decide
  | cons c resto =>
    have hc : esEspacio c = false := h c (List.mem_cons_self c resto)
    have hresto : ∀ x ∈ resto, esEspacio x = false :=
      fun x hx => h x (List.mem_cons_of_mem c hx)
    unfold stripChars
    rw [show (c :: resto) ++ ['\n'] = c :: (resto ++ ['\n']) from rfl,
      List.dropWhile_cons, if_neg (by simp [hc])]
    rw [show (c :: (resto ++ ['\n'])).reverse = '\n' :: (resto.reverse ++ [c]) from by
      simp]
    rw [List.dropWhile_cons, if_pos (by decide)]
    rw [dropWhile_de_bueno (fun x hx => by
      rcases List.mem_append.mp hx with hx1 | hx1
      · exact hresto x (List.mem_reverse.mp hx1)
      · simp only [List.mem_singleton] at hx1
        subst hx1
        exact hc)]
    simp

/-! ## Character-class facts about the rendered fields -/

theorem natDecimal_buen {n : ℕ} {c : Char} (hc : c ∈ natDecimal n) :
    c ≠ ',' ∧ esEspacio c = false ∧ c ≠ '.' := by
  obtain ⟨d, hd, rfl⟩ := natDecimal_mem hc
  obtain ⟨h1, h2, h3, -, -⟩ := digitChar_buen hd
  exact ⟨h1, h2, h3⟩

theorem dosDigitos_buen {m : ℕ} {c : Char} (hc : c ∈ dosDigitos m) :
    c ≠ ',' ∧ esEspacio c = false := by
  unfold dosDigitos at hc
  rcases List.mem_cons.mp hc with rfl | hc
  · obtain ⟨g1, g2, -, -, -⟩ := digitChar_buen (show m / 10 % 10 < 10 by omega)
    exact ⟨g1, g2⟩
  · rcases List.mem_cons.mp hc with rfl | hc
    · obtain ⟨g1, g2, -, -, -⟩ := digitChar_buen (show m % 10 < 10 by omega)
      exact ⟨g1, g2⟩
    · simp at hc

theorem formatF2_buen {q : ℚ} {c : Char} (hc : c ∈ formatF2 q) :
    c ≠ ',' ∧ esEspacio c = false := by
  unfold formatF2 at hc
  rcases List.mem_append.mp hc with h1 | h1
  · rcases List.mem_append.mp h1 with h2 | h2
    · rcases List.mem_append.mp h2 with h3 | h3
      · split at h3
        · simp only [List.mem_singleton] at h3
          subst h3
          decide
        · simp at h3
      · obtain ⟨g1, g2, -⟩ := natDecimal_buen h3
        exact ⟨g1, g2⟩
    · simp only [List.mem_singleton] at h2
      subst h2
      decide
  · exact dosDigitos_buen h1

theorem pyStr_buen {v : PyVal} (hv : v.isNum = true) {c : Char}
    (hc : c ∈ pyStr v) : c ≠ ',' ∧ esEspacio c = false := by
  cases v with
  | str s => simp [PyVal.isNum] at hv
  | float q => exact formatF2_buen hc
  | int n =>
    unfold pyStr at hc
    rcases List.mem_append.mp hc with h1 | h1
    · split at h1
      · simp only [List.mem_singleton] at h1
        subst h1
        decide
      · simp at h1
    · obtain ⟨g1, g2, -⟩ := natDecimal_buen h1
      exact ⟨g1, g2⟩
  | bool b =>
    unfold pyStr at hc
    cases b
    · have hall : ∀ x ∈ ['F', 'a', 'l', 's', 'e'], x ≠ ',' ∧ esEspacio x = false := by
        decide
      exact hall c (by simpa using hc)
    · have hall : ∀ x ∈ ['T', 'r', 'u', 'e'], x ≠ ',' ∧ esEspacio x = false := by
        decide
      exact hall c (by simpa using hc)

/-! ## Decomposing a saved line -/

theorem split_linea {a : Asiento} (hnum : a.numero.isNum = true)
    (hfil : a.fila.isNum = true) :
    splitOnChar ',' (stripChars (lineaDeAsiento a)) =
      [pyStr a.fila, pyStr a.numero,
       if a.reservado then "Reservado".data else "Disponible".data,
       formatF2 a.precio_actual] := by
  have hestado : ∀ x ∈ (if a.reservado then "Reservado".data else "Disponible".data),
      x ≠ ',' ∧ esEspacio x = false := by
    split <;> decide
  have hline : lineaDeAsiento a =
      (pyStr a.fila ++ ',' :: (pyStr a.numero ++ ',' ::
        ((if a.reservado then "Reservado".data else "Disponible".data) ++ ',' ::
          formatF2 a.precio_actual))) ++ ['\n'] := by
    simp [lineaDeAsiento, List.append_assoc]
  have hbody : ∀ c ∈ (pyStr a.fila ++ ',' :: (pyStr a.numero ++ ',' ::
      ((if a.reservado then "Reservado".data else "Disponible".data) ++ ',' ::
        formatF2 a.precio_actual))), esEspacio c = false := by
    intro c hc
    rcases List.mem_append.mp hc with h | h
    · exact (pyStr_buen hfil h).2
    · rcases List.mem_cons.mp h with rfl | h
      · decide
      · rcases List.mem_append.mp h with h | h
        · exact (pyStr_buen hnum h).2
        · rcases List.mem_cons.mp h with rfl | h
          · decide
          · rcases List.mem_append.mp h with h | h
            · exact (hestado c h).2
            · rcases List.mem_cons.mp h with rfl | h
              · decide
              · exact (formatF2_buen h).2
  rw [hline, stripChars_linea hbody,
    splitOnChar_append (fun c hc => (pyStr_buen hfil hc).1),
    splitOnChar_append (fun c hc => (pyStr_buen hnum hc).1),
    splitOnChar_append (fun c hc => (hestado c hc).1),
    splitOnChar_sin_sep (fun c hc => (formatF2_buen hc).1)]

/-! ## Reloading a saved line -/

theorem calcular_precio_sin_descuento (p : ℚ) : calcular_precio p false false = p := by
  unfold calcular_precio
  norm_num

theorem cargar_linea_de_guardar {t : SalaCine} {a : Asiento} {n f : ℤ}
    (hn : a.numero = .int n) (hf : a.fila = .int f) (hpn : 0 < n) (hpf : 0 < f)
    (hpb : esPositivo t.precio_base = true) :
    t.cargar_linea (lineaDeAsiento a) =
      .ok { t with asientos := t.asientos ++ [recargado t.precio_base a] } := by
  have hnum : a.numero.isNum = true := by rw [hn]; rfl
  have hfil : a.fila.isNum = true := by rw [hf]; rfl
  have hparse_n : parsePyInt (pyStr a.numero) = .ok n := by
    rw [hn]
    simp only [pyStr]
    rw [if_neg (by omega), List.nil_append, parsePyInt_natDecimal (by omega)]
    congr 1
    omega
  have hparse_f : parsePyInt (pyStr a.fila) = .ok f := by
    rw [hf]
    simp only [pyStr]
    rw [if_neg (by omega), List.nil_append, parsePyInt_natDecimal (by omega)]
    congr 1
    omega
  have hn2 : esPositivo (PyVal.int n) = true := by
    simp only [esPositivo, PyVal.isNum, PyVal.toRat, Bool.true_and, decide_eq_true_eq]
    exact_mod_cast hpn
  have hf2 : esPositivo (PyVal.int f) = true := by
    simp only [esPositivo, PyVal.isNum, PyVal.toRat, Bool.true_and, decide_eq_true_eq]
    exact_mod_cast hpf
  unfold SalaCine.cargar_linea
  rw [split_linea hnum hfil]
  simp only []
  rw [hparse_n, exceptBind_ok, hparse_f, exceptBind_ok,
    Asiento.init_eq_ok.mpr ⟨hn2, hf2, hpb, rfl⟩, exceptBind_ok]
  cases hres : a.reservado
  · rw [if_neg (by decide)]
    rw [exceptBind_ok]
    unfold recargado
    rw [hn, hf, hres]
  · rw [if_pos rfl]
    rw [Asiento.reservar_ok_de_disponible false false rfl, exceptBind_ok]
    unfold recargado
    rw [hn, hf, hres]
    simp [calcular_precio_sin_descuento]

theorem cargar_estado_de_guardar {l : List Asiento} {t : SalaCine}
    (hl : ∀ a ∈ l, identEntera a) (hpb : esPositivo t.precio_base = true) :
    t.cargar_estado (l.map lineaDeAsiento) =
      .ok { t with asientos := t.asientos ++ l.map (recargado t.precio_base) } := by
  induction l generalizing t with
  | nil =>
    simp only [List.map_nil, SalaCine.cargar_estado, List.foldlM_nil, List.append_nil]
    rfl
  | cons a resto ih =>
    obtain ⟨n, f, hn, hf, hpn, hpf⟩ := hl a (List.mem_cons_self a resto)
    have hresto : ∀ b ∈ resto, identEntera b :=
      fun b hb => hl b (List.mem_cons_of_mem a hb)
    have hpaso := cargar_linea_de_guardar (t := t) hn hf hpn hpf hpb
    have hcola := ih (t := { t with asientos := t.asientos ++ [recargado t.precio_base a] })
      hresto hpb
    simp only [List.map_cons, SalaCine.cargar_estado, List.foldlM_cons]
    rw [hpaso, exceptBind_ok]
    simp only [SalaCine.cargar_estado] at hcola
    rw [hcola]
    simp [List.append_assoc]

/-! ## C2: the lossy persistence round trip -/

/-- C2: saving any room whose seats have positive integer identities and
loading the file into a fresh room with a positive base price succeeds and
reproduces each seat in order with its reservation flag, but with both price
fields recomputed from the loading room's base price: in particular a
`Reservado` seat saved at a discounted price comes back `Reservado` at the
full base price (the persisted price field is read and discarded; the seat is
re-reserved with both discount flags `False`). -/
theorem c2_recarga_pierde_descuento (s t : SalaCine)
    (hs : ∀ a ∈ s.asientos, identEntera a)
    (ht : t.asientos = []) (hpb : esPositivo t.precio_base = true) :
    ∃ t2 : SalaCine, t.cargar_estado s.guardar_estado = .ok t2 ∧
      t2.asientos.length = s.asientos.length ∧
      ∀ (i : ℕ) (a : Asiento), s.asientos[i]? = some a →
        ∃ a2 : Asiento, t2.asientos[i]? = some a2 ∧ a2.numero = a.numero ∧ a2.fila = a.fila ∧
          a2.reservado = a.reservado ∧ a2.precio_actual = t.precio_base.toRat ∧
          (a.reservado = true → a.precio_actual < a.precio_base →
            a2.reservado = true ∧ a2.precio_actual = t.precio_base.toRat) := by
  refine ⟨_, cargar_estado_de_guardar hs hpb, ?_, ?_⟩
  · simp [ht]
  · intro i a hget
    refine ⟨recargado t.precio_base a, ?_, rfl, rfl, rfl, rfl,
      fun h1 _ => ⟨by simp [recargado, h1], rfl⟩⟩
    simp [ht, hget]

/-! ## C7: the persisted line format -/

theorem formatF2_estructura (q : ℚ) :
    ∃ pre k1 k2, k1 < 10 ∧ k2 < 10 ∧
      formatF2 q = pre ++ ['.', Nat.digitChar k1, Nat.digitChar k2] ∧
      '.' ∉ pre := by
  refine ⟨(if roundHalfEven (q * 100) < 0 then ['-'] else []) ++
      natDecimal ((roundHalfEven (q * 100)).natAbs / 100),
    (roundHalfEven (q * 100)).natAbs % 100 / 10 % 10,
    (roundHalfEven (q * 100)).natAbs % 100 % 10, by omega, by omega, ?_, ?_⟩
  · unfold formatF2 dosDigitos
    simp [List.append_assoc]
  · intro hmem
    rcases List.mem_append.mp hmem with h1 | h1
    · have hdm : ('.' : Char) = '-' := by
        split at h1
        · exact List.mem_singleton.mp h1
        · simp at h1
      exact absurd hdm (by decide)
    · exact (natDecimal_buen h1).2.2 rfl

/-- C7: `guardar_estado` produces exactly one line per seat, in insertion
order and with no header line; each line is
`f"{fila},{numero},{estado},{precio_actual:.2f}\n"` with `estado` the literal
`Reservado` or `Disponible` according to the reservation flag (the spec's
`Reserved`/`Available`), it splits on commas into exactly those four fields
after stripping the trailing newline, and the price field carries exactly two
fractional digits after its decimal point. -/
theorem c7_formato_guardar (s : SalaCine)
    (h : ∀ a ∈ s.asientos, a.numero.isNum = true ∧ a.fila.isNum = true) :
    s.guardar_estado.length = s.asientos.length ∧
    ∀ (i : ℕ) (a : Asiento), s.asientos[i]? = some a →
      ∃ linea : List Char, s.guardar_estado[i]? = some linea ∧
        linea = pyStr a.fila ++ [','] ++ pyStr a.numero ++ [','] ++
          (if a.reservado then "Reservado".data else "Disponible".data) ++ [','] ++
          formatF2 a.precio_actual ++ ['\n'] ∧
        splitOnChar ',' (stripChars linea) =
          [pyStr a.fila, pyStr a.numero,
           if a.reservado then "Reservado".data else "Disponible".data,
           formatF2 a.precio_actual] ∧
        (∃ pre k1 k2, k1 < 10 ∧ k2 < 10 ∧
          formatF2 a.precio_actual = pre ++ ['.', Nat.digitChar k1, Nat.digitChar k2] ∧
          '.' ∉ pre) := by
  refine ⟨by simp [SalaCine.guardar_estado], ?_⟩
  intro i a hget
  obtain ⟨hnum, hfil⟩ := h a (List.getElem?_mem hget)
  refine ⟨lineaDeAsiento a, ?_, ?_, split_linea hnum hfil,
    formatF2_estructura a.precio_actual⟩
  · simp [SalaCine.guardar_estado, hget]
  · simp [lineaDeAsiento, List.append_assoc]

/-- Witness for C7 at the one-seat room `salaDiezUno`. -/
theorem c7_formato_guardar_witness :
    (∀ a ∈ salaDiezUno.asientos, a.numero.isNum = true ∧ a.fila.isNum = true) ∧
    salaDiezUno.guardar_estado.length = salaDiezUno.asientos.length := by
  have hids : ∀ a ∈ salaDiezUno.asientos, a.numero.isNum = true ∧ a.fila.isNum = true := by
    intro a ha
    simp only [salaDiezUno, salaDiez, List.mem_singleton] at ha
    subst ha
    exact ⟨rfl, rfl⟩
  exact ⟨hids, (c7_formato_guardar salaDiezUno hids).1⟩

/-- Witness for C2: the room holding seat `(1, 1)` reserved at `5.0` (base
`10.0`), saved and reloaded into the empty room `salaDiez`. -/
theorem c2_recarga_pierde_descuento_witness :
    (∀ a ∈ salaConReserva.asientos, identEntera a) ∧
    salaDiez.asientos = [] ∧ esPositivo salaDiez.precio_base = true ∧
    (∃ t2 : SalaCine, salaDiez.cargar_estado salaConReserva.guardar_estado = .ok t2 ∧
      t2.asientos.length = salaConReserva.asientos.length ∧
      ∀ (i : ℕ) (a : Asiento), salaConReserva.asientos[i]? = some a →
        ∃ a2 : Asiento, t2.asientos[i]? = some a2 ∧ a2.numero = a.numero ∧
          a2.fila = a.fila ∧ a2.reservado = a.reservado ∧
          a2.precio_actual = salaDiez.precio_base.toRat ∧
          (a.reservado = true → a.precio_actual < a.precio_base →
            a2.reservado = true ∧ a2.precio_actual = salaDiez.precio_base.toRat)) := by
  have hids : ∀ a ∈ salaConReserva.asientos, identEntera a := by
    intro a ha
    simp only [salaConReserva, salaDiez, List.mem_singleton] at ha
    subst ha
    exact ⟨1, 1, rfl, rfl, by decide, by decide⟩
  exact ⟨hids, rfl, by decide,
    c2_recarga_pierde_descuento salaConReserva salaDiez hids rfl (by decide)⟩

/-- Witness for C5 at the available seat `Asiento(1, 1, 10.0)`. -/
theorem c5_condiciones_de_error_witness :
    (asientoDiez.reservar (.bool false) (.bool false) = .error .asientoReservado ↔
      asientoDiez.reservado = true) ∧
    (asientoDiez.cancelar_reserva = .error .asientoNoReservado ↔
      asientoDiez.reservado = false) :=
  c5_condiciones_de_error asientoDiez false false
